import Mathlib

set_option linter.unusedVariables false

/-!
Shallow embedding of minictr's `main.go`: the memory-limit parser
(`parseMemLimit`), the cgroup memory limiter (`applyMemoryCgroupLimit`),
the root pivot sequence (`pivotRoot`), the container initializer
(`containerInit`) and the runtime launcher (`main`, runtime mode).

Pure string processing is translated directly.  Side-effecting code is
embedded as a function that emits the ordered list of operating-system
operations it performs (`Op`) together with its outcome; an oracle
(`Sys.ok`) decides whether each operation succeeds.  Go byte indexing of
strings is modelled at character level: every unit-suffix and digit test
in the source involves only ASCII characters, where the two coincide.
-/

/-- Errors returned by `parseMemLimit` (one per `fmt.Errorf` site). -/
inductive MemErr where
  | emptyInput
  | invalidSuffix (c : Char)
  | parseIntErr (s : String)
deriving DecidableEq

/-- Result of `parseMemLimit`: a byte count, a returned error, or a Go
runtime panic from indexing `s[len(s)-1]` on an empty string. -/
inductive MemResult where
  | ok (n : Int)
  | err (e : MemErr)
  | indexPanic
deriving DecidableEq

/-- Go `unicode.IsSpace` restricted to Latin-1 (space, tab, newline,
vertical tab, form feed, carriage return, NEL, NBSP). -/
def goIsSpace (c : Char) : Bool :=
  c = ' ' || c = '\t' || c = '\n' || c = '\r' ||
  c.toNat = 11 || c.toNat = 12 || c.toNat = 133 || c.toNat = 160

/-- Go `strings.TrimSpace`, producing the trimmed character list. -/
def goTrimSpace (s : String) : List Char :=
  ((s.toList.dropWhile goIsSpace).reverse.dropWhile goIsSpace).reverse

/-- Decimal value of a nonempty all-digit character list, `none` otherwise. -/
def digitsToNat (l : List Char) : Option Nat :=
  if l = [] then none
  else if l.all Char.isDigit then
    some (l.foldl (fun acc c => acc * 10 + (c.toNat - 48)) 0)
  else none

/-- Go `strconv.ParseInt(s, 10, 64)`: optional sign, decimal digits, and
the value must fit in a signed 64-bit integer (otherwise `ErrRange`). -/
def goParseInt64 (l : List Char) : Option Int :=
  let signed : Bool × List Char :=
    match l with
    | '-' :: rest => (true, rest)
    | '+' :: rest => (false, rest)
    | _ => (false, l)
  match digitsToNat signed.2 with
  | none => none
  | some nv =>
    let v : Int := if signed.1 then -(nv : Int) else (nv : Int)
    if -9223372036854775808 ≤ v ∧ v ≤ 9223372036854775807 then some v else none

/-- Two's-complement wraparound of a Go `int64` arithmetic result. -/
def wrap64 (x : Int) : Int :=
  (x + 9223372036854775808) % 18446744073709551616 - 9223372036854775808

/-- Multiplier attached to a unit suffix character (the `switch` in
`parseMemLimit`); `none` for a character that is not a unit suffix. -/
def unitMult (c : Char) : Option Int :=
  if c = 'k' || c = 'K' then some 1024
  else if c = 'm' || c = 'M' then some 1048576
  else if c = 'g' || c = 'G' then some 1073741824
  else none

/-- Body of `parseMemLimit` after the empty check and `TrimSpace`:
inspect the last character, strip a unit suffix, parse the rest with
`strconv.ParseInt`, multiply with `int64` wraparound.  An empty trimmed
string hits `s[len(s)-1]` with a negative index and panics. -/
def parseCore (t : List Char) : MemResult :=
  match t.getLast? with
  | none => MemResult.indexPanic
  | some unit =>
    match unitMult unit with
    | some mult =>
      match goParseInt64 t.dropLast with
      | none => MemResult.err (MemErr.parseIntErr (String.mk t.dropLast))
      | some base => MemResult.ok (wrap64 (base * mult))
    | none =>
      if unit < '0' ∨ unit > '9' then MemResult.err (MemErr.invalidSuffix unit)
      else
        match goParseInt64 t with
        | none => MemResult.err (MemErr.parseIntErr (String.mk t))
        | some base => MemResult.ok (wrap64 (base * 1))

/-- `parseMemLimit` from `main.go`: the empty check happens on the raw
string, then the string is trimmed and `parseCore` runs. -/
def parseMemLimit (s : String) : MemResult :=
  if s = "" then MemResult.err MemErr.emptyInput
  else parseCore (goTrimSpace s)

/-- Decomposition of an accepted input into numeric prefix and unit
multiplier, following the specification's reading (prefix parsed by the
64-bit integer parser, multiplier from the suffix, trailing digit → 1). -/
def decompCore (t : List Char) : Option (Int × Int) :=
  match t.getLast? with
  | none => none
  | some unit =>
    match unitMult unit with
    | some mult => (goParseInt64 t.dropLast).map (fun b => (b, mult))
    | none =>
      if unit < '0' ∨ unit > '9' then none
      else (goParseInt64 t).map (fun b => (b, 1))

/-- `decompCore` after the raw-empty check and trimming. -/
def memDecomp (s : String) : Option (Int × Int) :=
  if s = "" then none else decompCore (goTrimSpace s)

example : parseMemLimit "100m" = MemResult.ok 104857600 := by decide
example : parseMemLimit "1g" = MemResult.ok 1073741824 := by decide
example : parseMemLimit "512k" = MemResult.ok 524288 := by decide
example : parseMemLimit "2048" = MemResult.ok 2048 := by decide
example : parseMemLimit "" = MemResult.err MemErr.emptyInput := by decide
example : parseMemLimit "100x" = MemResult.err (MemErr.invalidSuffix 'x') := by decide
example : parseMemLimit "abc" = MemResult.err (MemErr.invalidSuffix 'c') := by decide
example : parseMemLimit " " = MemResult.indexPanic := by decide
example : parseMemLimit " 10k " = MemResult.ok 10240 := by decide
example : parseMemLimit "-5k" = MemResult.ok (-5120) := by decide
example : parseMemLimit "9223372036854775807k" = MemResult.ok (-1024) := by decide

/-- An operating-system operation performed by the runtime, in the order
it appears in a trace. -/
inductive Op where
  | lookPath (prog : String)
  | runTool (argv : List String)
  | startChild (argv : List String)
  | waitChild
  | sethostname (h : String)
  | mountPrivateRoot
  | absPath (p : String)
  | mkdirAll (p : String)
  | bindMountSelf (p : String)
  | pivotSyscall (newRoot putOld : String)
  | chdir (p : String)
  | unmountDetach (p : String)
  | removeAll (p : String)
  | mountProcFs
  | execImage (path : String) (argv : List String)
  | statPath (p : String)
  | mkdir (p : String)
  | writeFile (p : String) (data : String)
deriving DecidableEq

/-- How the single blocking `cmd.Wait()` resolves: normal child exit with
a code, child killed by a signal (`ExitError` with `ExitCode() = -1`), or
a failure of the wait operation itself (a non-`ExitError` error). -/
inductive WaitRes where
  | exited (code : Nat)
  | signaled
  | waitFailed
deriving DecidableEq

/-- Oracle for the operating system: success of each operation, the value
`filepath.Abs` returns, the pid assigned to the started child, and the
outcome of `cmd.Wait()`. -/
structure Sys where
  ok : Op → Bool
  abs : String → String
  childPid : Nat
  wait : WaitRes

/-- Run a list of operations in order, stopping fatally at the first one
the oracle fails: the returned trace ends with the failing operation and
the error names it.  (The specification's words for "each step's failure
is fatal and aborts all remaining steps".) -/
def runSeq (ok : Op → Bool) : List Op → List Op × Except Op Unit
  | [] => ([], Except.ok ())
  | o :: rest =>
    if ok o then
      let r := runSeq ok rest
      (o :: r.1, r.2)
    else ([o], Except.error o)

/-- The seven pivot steps of `pivotRoot`, in source order. -/
def pivotSeq (sys : Sys) (newRoot : String) : List Op :=
  [Op.absPath newRoot,
   Op.mkdirAll (sys.abs newRoot ++ "/.pivot_root"),
   Op.bindMountSelf (sys.abs newRoot),
   Op.pivotSyscall (sys.abs newRoot) (sys.abs newRoot ++ "/.pivot_root"),
   Op.chdir "/",
   Op.unmountDetach "/.pivot_root",
   Op.removeAll "/.pivot_root"]

/-- `pivotRoot` from `main.go`: resolve the absolute path, create
`.pivot_root` inside the new root, bind-mount the new root onto itself,
`pivot_root`, `chdir /`, lazily unmount the old root, remove the holding
directory; every failure returns at once with the failing operation. -/
def pivotRoot (sys : Sys) (newRoot : String) : List Op × Except Op Unit :=
  let a := Op.absPath newRoot
  if sys.ok a then
    let absRoot := sys.abs newRoot
    let putOld := absRoot ++ "/.pivot_root"
    let m := Op.mkdirAll putOld
    if sys.ok m then
      let b := Op.bindMountSelf absRoot
      if sys.ok b then
        let p := Op.pivotSyscall absRoot putOld
        if sys.ok p then
          let c := Op.chdir "/"
          if sys.ok c then
            let u := Op.unmountDetach "/.pivot_root"
            if sys.ok u then
              let r := Op.removeAll "/.pivot_root"
              if sys.ok r then
                ([a, m, b, p, c, u, r], Except.ok ())
              else ([a, m, b, p, c, u, r], Except.error r)
            else ([a, m, b, p, c, u], Except.error u)
          else ([a, m, b, p, c], Except.error c)
        else ([a, m, b, p], Except.error p)
      else ([a, m, b], Except.error b)
    else ([a, m], Except.error m)
  else ([a], Except.error a)

/-- `mountProc` from `main.go`: ensure `/proc` exists, then mount procfs. -/
def mountProc (sys : Sys) : List Op × Except Op Unit :=
  let m := Op.mkdirAll "/proc"
  if sys.ok m then
    let p := Op.mountProcFs
    if sys.ok p then ([m, p], Except.ok ()) else ([m, p], Except.error p)
  else ([m], Except.error m)

/-- `setupLoopback` from `main.go`: try `ip link set lo up`, fall back to
`ifconfig lo up`, error if neither tool is found or the run fails. -/
def setupLoopback (sys : Sys) : List Op × Except Op Unit :=
  let lip := Op.lookPath "ip"
  if sys.ok lip then
    let r := Op.runTool ["ip", "link", "set", "lo", "up"]
    ([lip, r], if sys.ok r then Except.ok () else Except.error r)
  else
    let lif := Op.lookPath "ifconfig"
    if sys.ok lif then
      let r := Op.runTool ["ifconfig", "lo", "up"]
      ([lip, lif, r], if sys.ok r then Except.ok () else Except.error r)
    else ([lip, lif], Except.error lif)

/-- The three environment variables `containerInit` reads. -/
structure InitEnv where
  rootfs : String
  memLimit : String
  hostname : String

/-- Outcome of `containerInit`: successful image replacement (the function
never returns), the missing-rootfs error, a failed operation wrapped in a
descriptive error, or the no-command error at the exec step. -/
inductive InitOutcome where
  | execReplaced (path : String) (argv : List String)
  | rootfsNotSet
  | opFailed (o : Op)
  | noCommand
deriving DecidableEq

/-- `containerInit` from `main.go`: read the environment (empty `ROOTFS`
is an immediate error with no operation performed); set the hostname when
non-empty; remount `/` private recursively; run `pivotRoot`; run
`mountProc`; attempt `setupLoopback` (its failure only logged); then, if
`os.Args` has fewer than three entries, return the no-command error, and
otherwise exec `os.Args[2]` with arguments `os.Args[2:]`. -/
def containerInit (sys : Sys) (env : InitEnv) (args : List String) :
    List Op × InitOutcome :=
  if env.rootfs = "" then ([], InitOutcome.rootfsNotSet)
  else
    let host : List Op × Except Op Unit :=
      if env.hostname = "" then ([], Except.ok ())
      else
        let h := Op.sethostname env.hostname
        ([h], if sys.ok h then Except.ok () else Except.error h)
    match host with
    | (t1, Except.error e) => (t1, InitOutcome.opFailed e)
    | (t1, Except.ok ()) =>
      let mp := Op.mountPrivateRoot
      if sys.ok mp then
        match pivotRoot sys env.rootfs with
        | (t2, Except.error e) => (t1 ++ [mp] ++ t2, InitOutcome.opFailed e)
        | (t2, Except.ok ()) =>
          match mountProc sys with
          | (t3, Except.error e) =>
            (t1 ++ [mp] ++ t2 ++ t3, InitOutcome.opFailed e)
          | (t3, Except.ok ()) =>
            let t4 := (setupLoopback sys).1
            let pre := t1 ++ [mp] ++ t2 ++ t3 ++ t4
            if args.length < 3 then (pre, InitOutcome.noCommand)
            else
              match args.drop 2 with
              | [] => (pre, InitOutcome.noCommand)
              | c :: rest =>
                let e := Op.execImage c (c :: rest)
                (pre ++ [e],
                 if sys.ok e then InitOutcome.execReplaced c (c :: rest)
                 else InitOutcome.opFailed e)
      else (t1 ++ [mp], InitOutcome.opFailed mp)

/-- Fixed cgroup-v1 memory hierarchy location used by the limiter. -/
def cgroupBase : String := "/sys/fs/cgroup/memory"

/-- The cgroup subdirectory made for a pid: `mini_<pid>` under the base. -/
def cgroupDir (pid : Nat) : String := cgroupBase ++ "/mini_" ++ toString pid

/-- The limit control file of the pid's cgroup. -/
def limitFile (pid : Nat) : String := cgroupDir pid ++ "/memory.limit_in_bytes"

/-- The membership control file of the pid's cgroup. -/
def procsFile (pid : Nat) : String := cgroupDir pid ++ "/cgroup.procs"

/-- The four limiter operations of `applyMemoryCgroupLimit`, in source
order: stat the hierarchy, make the directory, write the limit, write the
pid. -/
def cgroupSeq (pid : Nat) (limitBytes : Int) : List Op :=
  [Op.statPath cgroupBase,
   Op.mkdir (cgroupDir pid),
   Op.writeFile (limitFile pid) (toString limitBytes),
   Op.writeFile (procsFile pid) (toString pid)]

/-- `applyMemoryCgroupLimit` from `main.go`: check the fixed hierarchy
exists, create `mini_<pid>`, write `memory.limit_in_bytes`, then write
`cgroup.procs`; every failure returns at once with a descriptive error
and nothing is rolled back. -/
def applyMemoryCgroupLimit (ok : Op → Bool) (pid : Nat) (limitBytes : Int) :
    List Op × Except Op Unit :=
  let st := Op.statPath cgroupBase
  if ok st then
    let mk := Op.mkdir (cgroupDir pid)
    if ok mk then
      let wl := Op.writeFile (limitFile pid) (toString limitBytes)
      if ok wl then
        let wp := Op.writeFile (procsFile pid) (toString pid)
        if ok wp then ([st, mk, wl, wp], Except.ok ())
        else ([st, mk, wl, wp], Except.error wp)
      else ([st, mk, wl], Except.error wl)
    else ([st, mk], Except.error mk)
  else ([st], Except.error st)

/-- Reasons the launcher terminates fatally (`log.Fatal` sites in runtime
mode). -/
inductive LaunchErr where
  | emptyRootfs
  | emptyCommand
  | lookPathFailed
  | startFailed
  | waitError
deriving DecidableEq

/-- Outcome of the launcher: a fatal error, its own exit with a code, or
a Go runtime panic propagating out of `parseMemLimit`. -/
inductive LaunchOutcome where
  | fatal (e : LaunchErr)
  | exitCode (code : Nat)
  | panicked
deriving DecidableEq

/-- Runtime mode of `main` from `main.go`, after flag parsing: validate
rootfs and command, resolve the own executable, start the child with
`init` prepended to the command, optionally parse the memory limit and
apply the cgroup limit (parse errors and limiter errors only logged, but
a parser panic crashes the process), then wait once and propagate the
child's exit code; `os.Exit(-1)` for a signaled child leaves status 255;
only a non-`ExitError` wait failure is fatal. -/
def launcher (sys : Sys) (argv0 rootfs memLimit hostname : String)
    (command : List String) : List Op × LaunchOutcome :=
  if rootfs = "" then ([], LaunchOutcome.fatal LaunchErr.emptyRootfs)
  else if command = [] then ([], LaunchOutcome.fatal LaunchErr.emptyCommand)
  else
    let lp := Op.lookPath argv0
    if sys.ok lp then
      let st := Op.startChild ("init" :: command)
      if sys.ok st then
        let mem : List Op × Bool :=
          if memLimit = "" then ([], false)
          else
            match parseMemLimit memLimit with
            | MemResult.indexPanic => ([], true)
            | MemResult.err _ => ([], false)
            | MemResult.ok n =>
              ((applyMemoryCgroupLimit sys.ok sys.childPid n).1, false)
        if mem.2 then ([lp, st] ++ mem.1, LaunchOutcome.panicked)
        else
          let tr := [lp, st] ++ mem.1 ++ [Op.waitChild]
          match sys.wait with
          | WaitRes.exited c => (tr, LaunchOutcome.exitCode c)
          | WaitRes.signaled => (tr, LaunchOutcome.exitCode 255)
          | WaitRes.waitFailed => (tr, LaunchOutcome.fatal LaunchErr.waitError)
      else ([lp, st], LaunchOutcome.fatal LaunchErr.startFailed)
    else ([lp], LaunchOutcome.fatal LaunchErr.lookPathFailed)

example :
    launcher ⟨fun _ => true, id, 7, WaitRes.exited 7⟩ "mc" "/r" "" "h" ["/bin/sh"] =
      ([Op.lookPath "mc", Op.startChild ["init", "/bin/sh"], Op.waitChild],
       LaunchOutcome.exitCode 7) := by decide

example :
    launcher ⟨fun _ => true, id, 7, WaitRes.exited 0⟩ "mc" "/r" " " "h" ["/bin/sh"] =
      ([Op.lookPath "mc", Op.startChild ["init", "/bin/sh"]],
       LaunchOutcome.panicked) := by decide

example :
    containerInit ⟨fun _ => true, id, 1, WaitRes.exited 0⟩ ⟨"/nr", "", "host1"⟩
      ["prog", "init"] =
      ([Op.sethostname "host1", Op.mountPrivateRoot] ++
        pivotSeq ⟨fun _ => true, id, 1, WaitRes.exited 0⟩ "/nr" ++
        [Op.mkdirAll "/proc", Op.mountProcFs, Op.lookPath "ip",
         Op.runTool ["ip", "link", "set", "lo", "up"]],
       InitOutcome.noCommand) := by decide

/-- `l₁` is a leading segment of `l₂`: the trace so far, extended by the
remaining operations. -/
def headSegment (l₁ l₂ : List Op) : Prop := ∃ t, l₁ ++ t = l₂

theorem headSegment_mem {l₁ l₂ : List Op} (h : headSegment l₁ l₂) {x : Op}
    (hx : x ∈ l₁) : x ∈ l₂ := by
  obtain ⟨t, ht⟩ := h
  subst ht
  exact List.mem_append_left t hx

theorem runSeq_head (ok : Op → Bool) (l : List Op) :
    headSegment (runSeq ok l).1 l := by
  induction l with
  | nil => exact ⟨[], rfl⟩
  | cons o rest ih =>
    by_cases h : ok o
    · obtain ⟨t, ht⟩ := ih
      exact ⟨t, by simp [runSeq, h, ht]⟩
    · exact ⟨rest, by simp [runSeq, h]⟩

theorem runSeq_ok_iff (ok : Op → Bool) (l : List Op) :
    (runSeq ok l).2 = Except.ok () ↔ ∀ o ∈ l, ok o = true := by
  induction l with
  | nil => simp [runSeq]
  | cons o rest ih =>
    by_cases h : ok o
    · simp [runSeq, h, ih]
    · simp [runSeq, h]

theorem runSeq_error (ok : Op → Bool) (l : List Op) :
    ∀ e : Op, (runSeq ok l).2 = Except.error e →
      ok e = false ∧
      ∃ l₁ l₂, l = l₁ ++ e :: l₂ ∧ (runSeq ok l).1 = l₁ ++ [e] ∧
        ∀ x ∈ l₁, ok x = true := by
  induction l with
  | nil => intro e h; simp [runSeq] at h
  | cons o rest ih =>
    intro e h
    by_cases hok : ok o
    · have h' : (runSeq ok rest).2 = Except.error e := by
        simpa [runSeq, hok] using h
      obtain ⟨he, l₁, l₂, hsplit, htr, hall⟩ := ih e h'
      refine ⟨he, o :: l₁, l₂, by simp [hsplit], by simp [runSeq, hok, htr], ?_⟩
      intro x hx
      rcases List.mem_cons.mp hx with rfl | hx
      · exact hok
      · exact hall x hx
    · have he : e = o := by
        simp [runSeq, hok] at h
        exact h.symm
      subst he
      exact ⟨by simpa using hok, [], rest, rfl, by simp [runSeq, hok], by simp⟩

theorem runSeq_all (ok : Op → Bool) (l : List Op) (h : ∀ o, ok o = true) :
    runSeq ok l = (l, Except.ok ()) := by
  induction l with
  | nil => rfl
  | cons o rest ih => simp [runSeq, h, ih]

theorem pivotRoot_eq_runSeq (sys : Sys) (newRoot : String) :
    pivotRoot sys newRoot = runSeq sys.ok (pivotSeq sys newRoot) := by
  simp only [pivotRoot, pivotSeq]
  split_ifs <;> simp_all [runSeq]

theorem applyMemoryCgroupLimit_eq_runSeq (ok : Op → Bool) (pid : Nat) (n : Int) :
    applyMemoryCgroupLimit ok pid n = runSeq ok (cgroupSeq pid n) := by
  simp only [applyMemoryCgroupLimit, cgroupSeq]
  split_ifs <;> simp_all [runSeq]

theorem wrap64_eq_of_fits (x : Int) (h1 : -9223372036854775808 ≤ x)
    (h2 : x < 9223372036854775808) : wrap64 x = x := by
  unfold wrap64
  have h3 : 0 ≤ x + 9223372036854775808 := by linarith
  have h4 : x + 9223372036854775808 < 18446744073709551616 := by linarith
  rw [Int.emod_eq_of_lt h3 h4]
  ring

theorem parseCore_ok_iff (t : List Char) (n : Int) :
    parseCore t = MemResult.ok n ↔
      ∃ b m, decompCore t = some (b, m) ∧ n = wrap64 (b * m) := by
  cases ht : t.getLast? with
  | none => simp [parseCore, decompCore, ht]
  | some unit =>
    cases hu : unitMult unit with
    | some mult =>
      cases hp : goParseInt64 t.dropLast with
      | none => simp [parseCore, decompCore, ht, hu, hp]
      | some base =>
        simp [parseCore, decompCore, ht, hu, hp, eq_comm]
        constructor
        · intro h
          exact ⟨base, mult, ⟨rfl, rfl⟩, h⟩
        · rintro ⟨b, m, ⟨rfl, rfl⟩, h⟩
          exact h
    | none =>
      by_cases hd : unit < '0' ∨ unit > '9'
      · simp [parseCore, decompCore, ht, hu, hd]
      · cases hp : goParseInt64 t with
        | none => simp [parseCore, decompCore, ht, hu, hd, hp]
        | some base =>
          simp [parseCore, decompCore, ht, hu, hd, hp, eq_comm]
          constructor
          · intro h
            exact ⟨base, 1, ⟨rfl, rfl⟩, by simpa using h⟩
          · rintro ⟨b, m, ⟨rfl, rfl⟩, h⟩
            simpa using h

theorem parseMemLimit_ok_iff (s : String) (n : Int) :
    parseMemLimit s = MemResult.ok n ↔
      ∃ b m, memDecomp s = some (b, m) ∧ n = wrap64 (b * m) := by
  unfold parseMemLimit memDecomp
  by_cases hs : s = ""
  · simp [hs]
  · simp [hs, parseCore_ok_iff]

theorem unitMult_cases (c : Char) (m : Int) (h : unitMult c = some m) :
    m = 1024 ∨ m = 1048576 ∨ m = 1073741824 := by
  unfold unitMult at h
  split_ifs at h <;> simp_all

theorem decompCore_mult (t : List Char) (b m : Int)
    (h : decompCore t = some (b, m)) :
    m = 1 ∨ m = 1024 ∨ m = 1048576 ∨ m = 1073741824 := by
  unfold decompCore at h
  split at h
  · simp at h
  · rename_i unit heq
    split at h
    · rename_i mult hu
      simp only [Option.map_eq_some'] at h
      obtain ⟨a, ha, hpair⟩ := h
      simp only [Prod.ext_iff] at hpair
      have hm : m = mult := hpair.2.symm
      subst hm
      exact Or.inr (unitMult_cases unit _ hu)
    · rename_i hu
      split_ifs at h
      simp only [Option.map_eq_some'] at h
      obtain ⟨a, ha, hpair⟩ := h
      simp only [Prod.ext_iff] at hpair
      exact Or.inl hpair.2.symm

theorem procsFile_ne_limitFile (pid : Nat) : procsFile pid ≠ limitFile pid := by
  intro h
  have hd : (procsFile pid).data = (limitFile pid).data := congrArg String.data h
  have h1 : (procsFile pid).data = (cgroupDir pid).data ++ "/cgroup.procs".data := rfl
  have h2 : (limitFile pid).data =
      (cgroupDir pid).data ++ "/memory.limit_in_bytes".data := rfl
  rw [h1, h2] at hd
  exact absurd (List.append_cancel_left hd) (by decide)

/-- C1: `pivotRoot` executes exactly these steps in exact order — resolve
the new root to an absolute path, create the retained `.pivot_root`
subdirectory inside it, recursively bind-mount the new root onto itself,
invoke the atomic root swap, change directory into the new root, lazily
unmount the relocated old root, and remove the retained subdirectory —
and each step's failure is fatal, aborting all remaining steps. -/
theorem C1_pivot_sequence (sys : Sys) (newRoot : String) :
    pivotRoot sys newRoot = runSeq sys.ok (pivotSeq sys newRoot) ∧
    pivotSeq sys newRoot =
      [Op.absPath newRoot,
       Op.mkdirAll (sys.abs newRoot ++ "/.pivot_root"),
       Op.bindMountSelf (sys.abs newRoot),
       Op.pivotSyscall (sys.abs newRoot) (sys.abs newRoot ++ "/.pivot_root"),
       Op.chdir "/",
       Op.unmountDetach "/.pivot_root",
       Op.removeAll "/.pivot_root"] ∧
    ((pivotRoot sys newRoot).2 = Except.ok () ↔
      ∀ o ∈ pivotSeq sys newRoot, sys.ok o = true) ∧
    ∀ e : Op, (pivotRoot sys newRoot).2 = Except.error e →
      sys.ok e = false ∧
      ∃ l₁ l₂, pivotSeq sys newRoot = l₁ ++ e :: l₂ ∧
        (pivotRoot sys newRoot).1 = l₁ ++ [e] ∧ ∀ x ∈ l₁, sys.ok x = true := by
  have h := pivotRoot_eq_runSeq sys newRoot
  refine ⟨h, rfl, ?_, ?_⟩
  · rw [h]
    exact runSeq_ok_iff sys.ok _
  · intro e he
    rw [h] at he
    rw [h]
    exact runSeq_error sys.ok (pivotSeq sys newRoot) e he

theorem C1_pivot_sequence_witness :
    (pivotRoot ⟨fun _ => true, fun s => s, 0, WaitRes.exited 0⟩ "/newroot").2 =
      Except.ok () :=
  (C1_pivot_sequence ⟨fun _ => true, fun s => s, 0, WaitRes.exited 0⟩
    "/newroot").2.2.1.mpr (by decide)

/-- C3 counterexample: the input "9223372036854775807k" is accepted, but
the multiplication wraps around 64 bits: the parser returns -1024, which
is not the exact product of the numeric prefix and 1024. -/
theorem C3_overflow_counterexample :
    parseMemLimit "9223372036854775807k" = MemResult.ok (-1024) ∧
      decide ((-1024 : Int) = 9223372036854775807 * 1024) = false := by
  exact ⟨by decide, by decide⟩

/-- C3 (amended): for every accepted input, the returned byte count is the
numeric prefix times the unit multiplier reduced by signed 64-bit
wraparound — exact and never rounded whenever the true product fits in
int64 — with multiplier 1024 for k/K, 1024 squared for m/M, 1024 cubed
for g/G, and 1 for a trailing decimal digit; in particular "100m" →
104857600, "1g" → 1073741824, "512k" → 524288 and "2048" → 2048. -/
theorem C3_exact_product (s : String) :
    (∀ n : Int, parseMemLimit s = MemResult.ok n →
      ∃ b m, memDecomp s = some (b, m) ∧ n = wrap64 (b * m)) ∧
    (∀ b m : Int, memDecomp s = some (b, m) →
      -9223372036854775808 ≤ b * m → b * m < 9223372036854775808 →
      parseMemLimit s = MemResult.ok (b * m)) ∧
    (∀ b m : Int, memDecomp s = some (b, m) →
      m = 1 ∨ m = 1024 ∨ m = 1048576 ∨ m = 1073741824) ∧
    parseMemLimit "100m" = MemResult.ok 104857600 ∧
    parseMemLimit "1g" = MemResult.ok 1073741824 ∧
    parseMemLimit "512k" = MemResult.ok 524288 ∧
    parseMemLimit "2048" = MemResult.ok 2048 := by
  refine ⟨?_, ?_, ?_, by decide, by decide, by decide, by decide⟩
  · intro n h
    exact (parseMemLimit_ok_iff s n).mp h
  · intro b m h h1 h2
    have hk := (parseMemLimit_ok_iff s (wrap64 (b * m))).mpr ⟨b, m, h, rfl⟩
    rwa [wrap64_eq_of_fits _ h1 h2] at hk
  · intro b m h
    unfold memDecomp at h
    by_cases hs : s = ""
    · rw [if_pos hs] at h
      exact absurd h (by simp)
    · rw [if_neg hs] at h
      exact decompCore_mult _ _ _ h

theorem C3_exact_product_witness :
    parseMemLimit "10k" = MemResult.ok (10 * 1024) :=
  (C3_exact_product "10k").2.1 10 1024 (by decide) (by decide) (by decide)

/-- C4 (code bug): the parser is not total — the raw-empty check precedes
trimming, so the whitespace-only input " " trims to the empty string and
the final-character indexing `s[len(s)-1]` panics; the inputs "", "100x"
and "abc" do each fail with a distinct error. -/
theorem C4_whitespace_panic :
    parseMemLimit " " = MemResult.indexPanic ∧
    parseMemLimit "" = MemResult.err MemErr.emptyInput ∧
    parseMemLimit "100x" = MemResult.err (MemErr.invalidSuffix 'x') ∧
    parseMemLimit "abc" = MemResult.err (MemErr.invalidSuffix 'c') ∧
    decide (MemErr.emptyInput = MemErr.invalidSuffix 'x') = false ∧
    decide (MemErr.invalidSuffix 'x' = MemErr.invalidSuffix 'c') = false := by
  exact ⟨by decide, by decide, by decide, by decide, by decide, by decide⟩

/-- C5: for every process id and byte limit, the limiter's trace stays
within the four-step sequence, the created subdirectory is the
deterministic `mini_<pid>` name, and whenever the membership file is
written, the limit file write occurs strictly earlier in the trace. -/
theorem C5_limit_write_order (ok : Op → Bool) (pid : Nat) (limitBytes : Int) :
    headSegment (applyMemoryCgroupLimit ok pid limitBytes).1
      (cgroupSeq pid limitBytes) ∧
    (∀ p, Op.mkdir p ∈ (applyMemoryCgroupLimit ok pid limitBytes).1 →
      p = cgroupDir pid) ∧
    (Op.writeFile (procsFile pid) (toString pid) ∈
        (applyMemoryCgroupLimit ok pid limitBytes).1 →
      ∃ l₁ l₂, (applyMemoryCgroupLimit ok pid limitBytes).1 =
        l₁ ++ Op.writeFile (limitFile pid) (toString limitBytes) :: l₂ ++
          [Op.writeFile (procsFile pid) (toString pid)]) := by
  have hne := procsFile_ne_limitFile pid
  refine ⟨?_, ?_, ?_⟩
  · rw [applyMemoryCgroupLimit_eq_runSeq]
    exact runSeq_head ok _
  · intro p hp
    rw [applyMemoryCgroupLimit_eq_runSeq] at hp
    have hmem := headSegment_mem (runSeq_head ok (cgroupSeq pid limitBytes)) hp
    simp [cgroupSeq] at hmem
    exact hmem
  · intro hp
    by_cases h1 : ok (Op.statPath cgroupBase)
    · by_cases h2 : ok (Op.mkdir (cgroupDir pid))
      · by_cases h3 : ok (Op.writeFile (limitFile pid) (toString limitBytes))
        · refine ⟨[Op.statPath cgroupBase, Op.mkdir (cgroupDir pid)], [], ?_⟩
          by_cases h4 : ok (Op.writeFile (procsFile pid) (toString pid)) <;>
            simp [applyMemoryCgroupLimit, h1, h2, h3, h4]
        · simp [applyMemoryCgroupLimit, h1, h2, h3] at hp
          exact absurd hp.1 hne
      · simp [applyMemoryCgroupLimit, h1, h2] at hp
    · simp [applyMemoryCgroupLimit, h1] at hp

theorem C5_limit_write_order_witness :
    ∃ l₁ l₂, (applyMemoryCgroupLimit (fun _ => true) 42 1000).1 =
      l₁ ++ Op.writeFile (limitFile 42) (toString (1000 : Int)) :: l₂ ++
        [Op.writeFile (procsFile 42) (toString 42)] :=
  (C5_limit_write_order (fun _ => true) 42 1000).2.2 (by decide)

/-- C9: the limiter reports an absent cgroup hierarchy as an error without
mounting anything; any failing filesystem operation returns immediately
with an error naming it as the last operation of the trace; and partial
state is never rolled back — no removal or unmount ever appears, and when
the directory is created but the limit write fails, the trace ends right
there with the directory left in place. -/
theorem C9_limiter_errors (ok : Op → Bool) (pid : Nat) (limitBytes : Int) :
    (ok (Op.statPath cgroupBase) = false →
      applyMemoryCgroupLimit ok pid limitBytes =
        ([Op.statPath cgroupBase], Except.error (Op.statPath cgroupBase))) ∧
    (∀ e, (applyMemoryCgroupLimit ok pid limitBytes).2 = Except.error e →
      ok e = false ∧
      (applyMemoryCgroupLimit ok pid limitBytes).1.getLast? = some e) ∧
    (∀ p, Op.removeAll p ∉ (applyMemoryCgroupLimit ok pid limitBytes).1) ∧
    (∀ p, Op.unmountDetach p ∉ (applyMemoryCgroupLimit ok pid limitBytes).1) ∧
    (∀ p q, Op.pivotSyscall p q ∉ (applyMemoryCgroupLimit ok pid limitBytes).1) ∧
    (∀ p, Op.bindMountSelf p ∉ (applyMemoryCgroupLimit ok pid limitBytes).1) ∧
    Op.mountPrivateRoot ∉ (applyMemoryCgroupLimit ok pid limitBytes).1 ∧
    Op.mountProcFs ∉ (applyMemoryCgroupLimit ok pid limitBytes).1 ∧
    (ok (Op.statPath cgroupBase) = true → ok (Op.mkdir (cgroupDir pid)) = true →
      ok (Op.writeFile (limitFile pid) (toString limitBytes)) = false →
      applyMemoryCgroupLimit ok pid limitBytes =
        ([Op.statPath cgroupBase, Op.mkdir (cgroupDir pid),
          Op.writeFile (limitFile pid) (toString limitBytes)],
         Except.error (Op.writeFile (limitFile pid) (toString limitBytes)))) := by
  refine ⟨?_, ?_, ?_, ?_, ?_, ?_, ?_, ?_, ?_⟩
  · intro h
    simp [applyMemoryCgroupLimit, h]
  · intro e he
    rw [applyMemoryCgroupLimit_eq_runSeq] at he ⊢
    obtain ⟨hfe, l₁, l₂, hsplit, htr, hall⟩ :=
      runSeq_error ok (cgroupSeq pid limitBytes) e he
    refine ⟨hfe, ?_⟩
    rw [htr]
    exact List.getLast?_concat _
  · intro p hp
    rw [applyMemoryCgroupLimit_eq_runSeq] at hp
    have hmem := headSegment_mem (runSeq_head ok (cgroupSeq pid limitBytes)) hp
    simp [cgroupSeq] at hmem
  · intro p hp
    rw [applyMemoryCgroupLimit_eq_runSeq] at hp
    have hmem := headSegment_mem (runSeq_head ok (cgroupSeq pid limitBytes)) hp
    simp [cgroupSeq] at hmem
  · intro p q hp
    rw [applyMemoryCgroupLimit_eq_runSeq] at hp
    have hmem := headSegment_mem (runSeq_head ok (cgroupSeq pid limitBytes)) hp
    simp [cgroupSeq] at hmem
  · intro p hp
    rw [applyMemoryCgroupLimit_eq_runSeq] at hp
    have hmem := headSegment_mem (runSeq_head ok (cgroupSeq pid limitBytes)) hp
    simp [cgroupSeq] at hmem
  · intro hp
    rw [applyMemoryCgroupLimit_eq_runSeq] at hp
    have hmem := headSegment_mem (runSeq_head ok (cgroupSeq pid limitBytes)) hp
    simp [cgroupSeq] at hmem
  · intro hp
    rw [applyMemoryCgroupLimit_eq_runSeq] at hp
    have hmem := headSegment_mem (runSeq_head ok (cgroupSeq pid limitBytes)) hp
    simp [cgroupSeq] at hmem
  · intro h1 h2 h3
    simp [applyMemoryCgroupLimit, h1, h2, h3]

theorem C9_limiter_errors_witness :
    applyMemoryCgroupLimit
      (fun o => if o = Op.statPath cgroupBase then false else true) 7 512 =
      ([Op.statPath cgroupBase], Except.error (Op.statPath cgroupBase)) :=
  (C9_limiter_errors
    (fun o => if o = Op.statPath cgroupBase then false else true) 7 512).1
    (by decide)

theorem waitChild_notin_cgroup (ok : Op → Bool) (pid : Nat) (n : Int) :
    Op.waitChild ∉ (applyMemoryCgroupLimit ok pid n).1 := by
  intro hp
  rw [applyMemoryCgroupLimit_eq_runSeq] at hp
  have hmem := headSegment_mem (runSeq_head ok (cgroupSeq pid n)) hp
  simp [cgroupSeq] at hmem

theorem cgroup_count_waitChild (ok : Op → Bool) (pid : Nat) (n : Int) :
    ((applyMemoryCgroupLimit ok pid n).1).count Op.waitChild = 0 :=
  List.count_eq_zero.mpr (waitChild_notin_cgroup ok pid n)

theorem launcher_wait_phase (sys : Sys) (argv0 rootfs memLimit hostname : String)
    (command : List String) :
    (Op.waitChild ∈ (launcher sys argv0 rootfs memLimit hostname command).1 →
      (launcher sys argv0 rootfs memLimit hostname command).2 =
        (match sys.wait with
         | WaitRes.exited c => LaunchOutcome.exitCode c
         | WaitRes.signaled => LaunchOutcome.exitCode 255
         | WaitRes.waitFailed => LaunchOutcome.fatal LaunchErr.waitError)) ∧
    ((launcher sys argv0 rootfs memLimit hostname command).1).count Op.waitChild ≤ 1 := by
  unfold launcher
  by_cases hr : rootfs = ""
  · simp [hr]
  · by_cases hc : command = []
    · simp [hr, hc]
    · by_cases h1 : sys.ok (Op.lookPath argv0)
      · by_cases h2 : sys.ok (Op.startChild ("init" :: command))
        · by_cases hm : memLimit = ""
          · cases hw : sys.wait <;>
              simp [hr, hc, h1, h2, hm, hw, List.count_cons]
          · cases hp : parseMemLimit memLimit with
            | indexPanic =>
              simp [hr, hc, h1, h2, hm, hp, List.count_cons]
            | err e =>
              cases hw : sys.wait <;>
                simp [hr, hc, h1, h2, hm, hp, hw, List.count_cons]
            | ok n =>
              cases hw : sys.wait <;>
                simp [hr, hc, h1, h2, hm, hp, hw, List.count_cons,
                  List.count_append, cgroup_count_waitChild]
        · simp [hr, hc, h1, h2, List.count_cons]
      · simp [hr, hc, h1, List.count_cons]

/-- C2: whenever the launcher reaches its single blocking wait, a normal
child exit with code c makes the launcher's own exit code exactly c
(including non-zero codes), and the launcher is fatal with the wait error
precisely when the wait operation itself failed — a child merely exiting
non-zero is never a launcher error. -/
theorem C2_exit_propagation (sys : Sys) (argv0 rootfs memLimit hostname : String)
    (command : List String) :
    (∀ c, Op.waitChild ∈ (launcher sys argv0 rootfs memLimit hostname command).1 →
      sys.wait = WaitRes.exited c →
      (launcher sys argv0 rootfs memLimit hostname command).2 =
        LaunchOutcome.exitCode c) ∧
    (Op.waitChild ∈ (launcher sys argv0 rootfs memLimit hostname command).1 →
      ((launcher sys argv0 rootfs memLimit hostname command).2 =
          LaunchOutcome.fatal LaunchErr.waitError ↔
        sys.wait = WaitRes.waitFailed)) ∧
    ((launcher sys argv0 rootfs memLimit hostname command).1).count
      Op.waitChild ≤ 1 := by
  obtain ⟨hph, hcount⟩ :=
    launcher_wait_phase sys argv0 rootfs memLimit hostname command
  refine ⟨?_, ?_, hcount⟩
  · intro c hmem hw
    rw [hph hmem, hw]
  · intro hmem
    rw [hph hmem]
    cases hw : sys.wait <;> simp

theorem C2_exit_propagation_witness :
    (launcher ⟨fun _ => true, fun s => s, 5, WaitRes.exited 7⟩ "mc" "/r" "" "h"
      ["/bin/sh"]).2 = LaunchOutcome.exitCode 7 :=
  (C2_exit_propagation ⟨fun _ => true, fun s => s, 5, WaitRes.exited 7⟩ "mc" "/r"
    "" "h" ["/bin/sh"]).1 7 (by decide) rfl

/-- C7: the launcher fails fatally, with an empty trace and so before any
child process creation, whenever the rootfs argument is the empty string
or the command list is empty. -/
theorem C7_fail_fast (sys : Sys) (argv0 rootfs memLimit hostname : String)
    (command : List String) :
    (rootfs = "" → launcher sys argv0 rootfs memLimit hostname command =
      ([], LaunchOutcome.fatal LaunchErr.emptyRootfs)) ∧
    (rootfs ≠ "" → command = [] →
      launcher sys argv0 rootfs memLimit hostname command =
        ([], LaunchOutcome.fatal LaunchErr.emptyCommand)) ∧
    (∀ a, Op.startChild a ∈
        (launcher sys argv0 rootfs memLimit hostname command).1 →
      rootfs ≠ "" ∧ command ≠ []) := by
  refine ⟨?_, ?_, ?_⟩
  · intro hr
    simp [launcher, hr]
  · intro hr hc
    simp [launcher, hr, hc]
  · intro a hmem
    by_cases hr : rootfs = ""
    · simp [launcher, hr] at hmem
    · by_cases hc : command = []
      · simp [launcher, hr, hc] at hmem
      · exact ⟨hr, hc⟩

theorem C7_fail_fast_witness :
    launcher ⟨fun _ => true, fun s => s, 5, WaitRes.exited 0⟩ "mc" "" "" "h"
      ["/bin/sh"] = ([], LaunchOutcome.fatal LaunchErr.emptyRootfs) :=
  (C7_fail_fast ⟨fun _ => true, fun s => s, 5, WaitRes.exited 0⟩ "mc" "" "" "h"
    ["/bin/sh"]).1 rfl

/-- C8 (code bug): limiting is meant to be advisory, and with no limit
string no cgroup operation happens, while a parse error or a limiter
failure only downgrades to a warning and the launcher still waits and
propagates the exit code — but a whitespace-only limit string " " makes
`parseMemLimit` panic, terminating the launcher before the wait, which
contradicts "never terminates the launcher". -/
theorem C8_advisory_limit :
    launcher ⟨fun _ => true, fun s => s, 5, WaitRes.exited 0⟩ "mc" "/r" " " "h"
      ["/bin/sh"] =
      ([Op.lookPath "mc", Op.startChild ["init", "/bin/sh"]],
       LaunchOutcome.panicked) ∧
    decide (Op.waitChild ∈ (launcher ⟨fun _ => true, fun s => s, 5,
      WaitRes.exited 0⟩ "mc" "/r" " " "h" ["/bin/sh"]).1) = false ∧
    (launcher ⟨fun _ => true, fun s => s, 5, WaitRes.exited 0⟩ "mc" "/r" "" "h"
      ["/bin/sh"]).1 =
      [Op.lookPath "mc", Op.startChild ["init", "/bin/sh"], Op.waitChild] ∧
    (launcher ⟨fun _ => true, fun s => s, 5, WaitRes.exited 0⟩ "mc" "/r" "abc" "h"
      ["/bin/sh"]).2 = LaunchOutcome.exitCode 0 ∧
    (launcher ⟨fun o => if o = Op.statPath cgroupBase then false else true,
      fun s => s, 5, WaitRes.exited 3⟩ "mc" "/r" "100m" "h" ["/bin/sh"]).2 =
      LaunchOutcome.exitCode 3 := by
  exact ⟨by decide, by decide, by decide, by decide, by decide⟩

/-- C6: when the initializer's environment has a missing or empty rootfs,
it fails immediately with the rootfs error and its trace is empty — no
hostname set, no mount, no mutation of any kind. -/
theorem C6_missing_rootfs (sys : Sys) (env : InitEnv) (args : List String)
    (h : env.rootfs = "") :
    containerInit sys env args = ([], InitOutcome.rootfsNotSet) := by
  simp [containerInit, h]

theorem C6_missing_rootfs_witness :
    containerInit ⟨fun _ => true, fun s => s, 1, WaitRes.exited 0⟩
      ⟨"", "", "mini-container"⟩ ["prog", "init", "/bin/sh"] =
      ([], InitOutcome.rootfsNotSet) :=
  C6_missing_rootfs _ _ _ rfl

/-- C10: invoked in initializer mode with the sentinel but no command
after it, with a non-empty hostname and every operation succeeding, the
initializer sets the hostname, privatizes the mount tree, performs the
full pivot sequence, mounts proc and attempts loopback bring-up, and only
then returns the no-command error — all those mutations are in the trace
and no image replacement is attempted. -/
theorem C10_no_command_after_mutations (sys : Sys) (env : InitEnv)
    (args : List String) (hr : env.rootfs ≠ "") (hh : env.hostname ≠ "")
    (hargs : args.length < 3) (hok : ∀ o, sys.ok o = true) :
    containerInit sys env args =
      ([Op.sethostname env.hostname, Op.mountPrivateRoot] ++
        pivotSeq sys env.rootfs ++
        [Op.mkdirAll "/proc", Op.mountProcFs, Op.lookPath "ip",
         Op.runTool ["ip", "link", "set", "lo", "up"]],
       InitOutcome.noCommand) := by
  have hpivot : pivotRoot sys env.rootfs = (pivotSeq sys env.rootfs, Except.ok ()) := by
    rw [pivotRoot_eq_runSeq]
    exact runSeq_all sys.ok _ hok
  simp [containerInit, hr, hh, hok, hpivot, mountProc, setupLoopback, hargs]

theorem C10_no_command_after_mutations_witness :
    containerInit ⟨fun _ => true, fun s => s, 1, WaitRes.exited 0⟩
      ⟨"/newroot", "", "mini-container"⟩ ["prog", "init"] =
      ([Op.sethostname "mini-container", Op.mountPrivateRoot] ++
        pivotSeq ⟨fun _ => true, fun s => s, 1, WaitRes.exited 0⟩ "/newroot" ++
        [Op.mkdirAll "/proc", Op.mountProcFs, Op.lookPath "ip",
         Op.runTool ["ip", "link", "set", "lo", "up"]],
       InitOutcome.noCommand) :=
  C10_no_command_after_mutations _ _ _ (by decide) (by decide) (by decide)
    (fun _ => rfl)
